/-
  Verification of the webp-shim module (build/image/webp-shim/src/webp.c).

  The module transcodes a WebP image to PNG or JPEG across a wasm boundary.
  We give a shallow embedding of its data model and operations:

  * `StretchyBuf` models an stb stretchy buffer: a heap allocation holding a
    capacity, an element count, and `cap` bytes of storage.  `sb_count`,
    `sb_add` follow stretchy_buffer.h semantics (sb_add grows the count by
    exactly `n`, reallocating when `count + n >= cap` to
    `max (2*cap) (count+n)`; realloc preserves the existing bytes).
  * `ImageBuffer` mirrors the C struct: a `byte_count` and an owned stretchy
    buffer pointer (`none` models the NULL pointer).
  * `write_image_to_mem` is the encoder write callback from webp.c.
  * The transcode entry points `get_png_handle_from_webp` /
    `get_jpg_handle_from_webp` are modelled with the external capabilities
    (WebPGetInfo, WebPDecodeRGBA, stbi_write_*_to_func) abstracted as
    oracles: a boolean for WebPGetInfo, an optional result for WebPDecodeRGBA,
    and an `Encoder` giving the chunk sequence the encoder feeds to the write
    callback plus its success flag.  Each operation also returns the trace of
    observable resource events (`Ev`) it performs, in program order.
  * `malloc`/`create_buffer` model the allocator boundary: emscripten's
    dlmalloc returns a fresh non-null block unless allocation fails, also for
    size zero (malloc(0) yields a non-null minimal allocation in dlmalloc).
-/
import Mathlib

namespace WebpShim

/-- An stb stretchy buffer allocation: capacity, element count, and the
stored bytes (`data.length = cap`; bytes past `count` are uninitialized,
modelled as whatever the list holds). -/
structure StretchyBuf where
  cap : Nat
  count : Nat
  data : List Nat
  deriving DecidableEq, Repr

/-- `sb_count` from stretchy_buffer.h: 0 for a NULL buffer, else the count. -/
def sb_count : Option StretchyBuf → Nat
  | none => 0
  | some b => b.count

/-- Capacity of a possibly-NULL stretchy buffer (stb `stb__sbm`). -/
def sbCap : Option StretchyBuf → Nat
  | none => 0
  | some b => b.cap

/-- The stored bytes of a possibly-NULL stretchy buffer. -/
def sbData : Option StretchyBuf → List Nat
  | none => []
  | some b => b.data

/-- `sb_add(a, n)` from stretchy_buffer.h: adds `n` (uninitialized) elements.
On a NULL buffer it allocates capacity `n`; otherwise, when
`count + n >= cap`, it reallocates to capacity `max (2*cap) (count+n)`
(stb__sbgrowf: `m = dbl_cur > min_needed ? dbl_cur : min_needed`),
preserving the existing bytes; the count always grows by exactly `n`. -/
def sb_add : Option StretchyBuf → Nat → StretchyBuf
  | none, n => ⟨n, n, List.replicate n 0⟩
  | some b, n =>
    if b.cap ≤ b.count + n then
      let m := max (2 * b.cap) (b.count + n)
      ⟨m, b.count + n, b.data ++ List.replicate (m - b.cap) 0⟩
    else
      ⟨b.cap, b.count + n, b.data⟩

/-- `memcpy(dst + off, src, src.length)` on a byte list. -/
def listWrite (d : List Nat) (off : Nat) (src : List Nat) : List Nat :=
  d.take off ++ src ++ d.drop (off + src.length)

/-- Apply `listWrite` to the storage of a possibly-NULL stretchy buffer
(a `memcpy` into the buffer; on NULL nothing is written, which the code
only does with zero-length data). -/
def writeAt (g : Option StretchyBuf) (off : Nat) (src : List Nat) :
    Option StretchyBuf :=
  g.map (fun b => ⟨b.cap, b.count, listWrite b.data off src⟩)

/-- The C struct `ImageBuffer`: a byte count and an owned stretchy buffer
(`none` = NULL pointer). -/
structure ImageBuffer where
  byte_count : Nat
  bytes : Option StretchyBuf
  deriving DecidableEq, Repr

/-- `createImageBuffer`: byte_count = 0, bytes = NULL. -/
def createImageBuffer : ImageBuffer :=
  ⟨0, none⟩

/-- `get_image_bytes_from_handle(p) { return p->bytes; }` — dereferences the
handle unconditionally (the argument is a plain `ImageBuffer`, not an
`Option`, mirroring that a non-null handle is a precondition). -/
def get_image_bytes_from_handle (p : ImageBuffer) : Option StretchyBuf :=
  p.bytes

/-- `get_num_bytes_from_handle(p) { return p->byte_count; }`. -/
def get_num_bytes_from_handle (p : ImageBuffer) : Nat :=
  p.byte_count

/-- The buffer state after the growth step of `write_image_to_mem`:
if `sb_count(bytes) < byte_count + size` the code calls
`sb_add(bytes, size < 128 ? 128 : size)`; otherwise the buffer is left
as is. -/
def grownBytes (ib : ImageBuffer) (size : Nat) : Option StretchyBuf :=
  if sb_count ib.bytes < ib.byte_count + size then
    some (sb_add ib.bytes (if size < 128 then 128 else size))
  else
    ib.bytes

/-- `write_image_to_mem(context, data, size)`: grow the stretchy buffer if
needed, `memcpy` the chunk to offset `byte_count`, add `size` to
`byte_count`.  The chunk is the `size` bytes at `data`. -/
def write_image_to_mem (ib : ImageBuffer) (chunk : List Nat) : ImageBuffer :=
  ⟨ib.byte_count + chunk.length,
   writeAt (grownBytes ib chunk.length) ib.byte_count chunk⟩

/-- Observable resource events of one invocation, in program order. -/
inductive Ev where
  | logNullInput   -- printf diagnostic for a NULL webp_ptr
  | callGetInfo    -- invocation of WebPGetInfo
  | callDecodeRGBA -- invocation of WebPDecodeRGBA
  | allocHandle    -- malloc of the ImageBuffer struct in createImageBuffer
  | webpFreeRGBA   -- WebPFree of the decoded RGBA pixel buffer
  | sbFreeBytes    -- sb_free of the handle's stretchy buffer allocation
  | freeHandle     -- free of the ImageBuffer struct itself
  deriving DecidableEq, Repr

/-- `release_image_handle(p)`: a NULL handle is a no-op; otherwise
`sb_free(p->bytes)` (which frees only when the stretchy buffer pointer is
non-NULL) followed by `free(p)`.  Returns the list of frees performed. -/
def release_image_handle (h : Option ImageBuffer) : List Ev :=
  match h with
  | none => []
  | some ib =>
    (match ib.bytes with
     | none => []
     | some _ => [Ev.sbFreeBytes]) ++ [Ev.freeHandle]

/-- `decode_webp_to_rgba`: logs when the input pointer is NULL but continues;
calls WebPGetInfo, returning NULL on its failure, else calls WebPDecodeRGBA
and returns its (possibly NULL) result.  The external results are the
oracles `getInfoOk` and `rgba`. -/
def decode_webp_to_rgba (inputNull : Bool) (getInfoOk : Bool)
    (rgba : Option Unit) : Option Unit × List Ev :=
  let pre := if inputNull then [Ev.logNullInput] else []
  if getInfoOk then
    (rgba, pre ++ [Ev.callGetInfo, Ev.callDecodeRGBA])
  else
    (none, pre ++ [Ev.callGetInfo])

/-- Abstraction of an stbi encoder run: the sequence of chunks it passes to
the write callback, and the int result it returns (ok = nonzero). -/
structure Encoder where
  chunks : List (List Nat)
  ok : Bool

/-- `get_png_handle_from_webp`: decode (returning NULL on failure before any
handle is created); on success create an ImageBuffer, run the PNG encoder
with `write_image_to_mem` as sink, `WebPFree` the RGBA buffer, then return
NULL if the encoder failed (note: without freeing the ImageBuffer) or the
handle on success. -/
def get_png_handle_from_webp (inputNull getInfoOk : Bool) (rgba : Option Unit)
    (enc : Encoder) : Option ImageBuffer × List Ev :=
  match decode_webp_to_rgba inputNull getInfoOk rgba with
  | (none, tr) => (none, tr)
  | (some _, tr) =>
    let ib := enc.chunks.foldl write_image_to_mem createImageBuffer
    let tr2 := tr ++ [Ev.allocHandle, Ev.webpFreeRGBA]
    if enc.ok then (some ib, tr2) else (none, tr2)

/-- `get_jpg_handle_from_webp`: identical control flow to the PNG entry
point, with `stbi_write_jpg_to_func` (quality fixed at 100) as the encoder. -/
def get_jpg_handle_from_webp (inputNull getInfoOk : Bool) (rgba : Option Unit)
    (enc : Encoder) : Option ImageBuffer × List Ev :=
  match decode_webp_to_rgba inputNull getInfoOk rgba with
  | (none, tr) => (none, tr)
  | (some _, tr) =>
    let ib := enc.chunks.foldl write_image_to_mem createImageBuffer
    let tr2 := tr ++ [Ev.allocHandle, Ev.webpFreeRGBA]
    if enc.ok then (some ib, tr2) else (none, tr2)

/-- A heap for the allocator boundary: a fresh-address counter and the live
blocks as (address, size) pairs.  Address 0 is NULL. -/
structure Heap where
  next : Nat
  blocks : List (Nat × Nat)
  deriving DecidableEq, Repr

/-- Models the C allocator (emscripten dlmalloc): unless allocation fails it
returns a fresh non-null block of the requested size — also for size 0,
where dlmalloc returns a non-null minimal allocation.  `fails` is the
out-of-memory oracle for this call. -/
def malloc (fails : Bool) (h : Heap) (size : Nat) : Option Nat × Heap :=
  if fails then (none, h)
  else (some (h.next + 1), ⟨h.next + 1 + size, (h.next + 1, size) :: h.blocks⟩)

/-- `create_buffer(size) { return malloc(size * sizeof(uint8_t)); }` — the
size is forwarded to malloc unchecked. -/
def create_buffer (fails : Bool) (h : Heap) (size : Nat) : Option Nat × Heap :=
  malloc fails h (size * 1)

/-! ### Well-formedness of reachable ImageBuffer states -/

/-- The structural invariant of an `ImageBuffer` during an encode session:
the stretchy buffer's count bounds `byte_count`, capacity bounds the count,
and the storage really has `cap` bytes. -/
def Wf (ib : ImageBuffer) : Prop :=
  ib.byte_count ≤ sb_count ib.bytes ∧
  sb_count ib.bytes ≤ sbCap ib.bytes ∧
  (sbData ib.bytes).length = sbCap ib.bytes

/-- Full invariant relating a buffer state to the bytes appended so far:
well-formed, `byte_count` is the number of appended bytes, and the first
`byte_count` stored bytes are exactly the appended content. -/
def Good (ib : ImageBuffer) (content : List Nat) : Prop :=
  Wf ib ∧ ib.byte_count = content.length ∧
  (sbData ib.bytes).take ib.byte_count = content

theorem sb_count_none : sb_count none = 0 := rfl

theorem sb_count_some (b : StretchyBuf) : sb_count (some b) = b.count := rfl

theorem sbCap_none : sbCap none = 0 := rfl

theorem sbCap_some (b : StretchyBuf) : sbCap (some b) = b.cap := rfl

theorem sbData_none : sbData none = [] := rfl

theorem sbData_some (b : StretchyBuf) : sbData (some b) = b.data := rfl

theorem writeAt_none (off : Nat) (src : List Nat) :
    writeAt none off src = none := rfl

theorem writeAt_some (b : StretchyBuf) (off : Nat) (src : List Nat) :
    writeAt (some b) off src = some ⟨b.cap, b.count, listWrite b.data off src⟩ :=
  rfl

theorem good_empty : Good createImageBuffer [] := by
  refine ⟨⟨?_, ?_, ?_⟩, ?_, ?_⟩ <;>
    simp [createImageBuffer, sb_count_none, sbCap_none, sbData_none]

theorem sb_add_count (b : Option StretchyBuf) (n : Nat) :
    (sb_add b n).count = sb_count b + n := by
  cases b with
  | none => simp [sb_add, sb_count]
  | some b => by_cases h : b.cap ≤ b.count + n <;> simp [sb_add, sb_count, h]

theorem sb_add_cap (b : Option StretchyBuf) (n : Nat) :
    (sb_add b n).count ≤ (sb_add b n).cap ∧ sbCap b ≤ (sb_add b n).cap := by
  cases b with
  | none => simp [sb_add, sbCap]
  | some b =>
    by_cases h : b.cap ≤ b.count + n
    · simp only [sb_add, h, if_pos, sbCap]
      constructor <;> omega
    · simp only [sb_add, h, if_neg, not_false_iff, sbCap]
      constructor <;> omega

theorem sb_add_data_length (b : Option StretchyBuf) (n : Nat)
    (hb : (sbData b).length = sbCap b) :
    (sb_add b n).data.length = (sb_add b n).cap := by
  cases b with
  | none => simp [sb_add]
  | some b =>
    simp only [sbData, sbCap] at hb
    by_cases h : b.cap ≤ b.count + n
    · simp only [sb_add, h, if_pos, List.length_append, List.length_replicate, hb]
      omega
    · simp [sb_add, h, hb]

theorem sb_add_data_prefix (b : Option StretchyBuf) (n k : Nat)
    (hb : (sbData b).length = sbCap b) (hk : k ≤ sb_count b)
    (hcc : sb_count b ≤ sbCap b) :
    (sb_add b n).data.take k = (sbData b).take k := by
  cases b with
  | none =>
    simp [sb_count] at hk
    simp [sb_add, sbData, hk]
  | some b =>
    simp only [sbData, sbCap] at hb
    simp only [sb_count, sbCap] at hk hcc
    by_cases h : b.cap ≤ b.count + n
    · simp only [sb_add, h, if_pos, sbData]
      rw [List.take_append_of_le_length (by omega)]
    · simp [sb_add, h, sbData]

/-- The maximum of `size` and 128 is what the code computes as
`size < 128 ? 128 : size`. -/
theorem grow_amount_eq_max (size : Nat) :
    (if size < 128 then 128 else size) = max size 128 := by
  by_cases h : size < 128 <;> simp [h] <;> omega

/-- After the growth step, the memcpy target region
`[byte_count, byte_count + size)` lies inside the buffer's element count,
which itself lies inside the allocated capacity. -/
theorem grownBytes_bound (ib : ImageBuffer) (size : Nat) (h : Wf ib) :
    ib.byte_count + size ≤ sb_count (grownBytes ib size) ∧
    sb_count (grownBytes ib size) ≤ sbCap (grownBytes ib size) ∧
    (sbData (grownBytes ib size)).length = sbCap (grownBytes ib size) := by
  obtain ⟨h1, h2, h3⟩ := h
  unfold grownBytes
  by_cases hc : sb_count ib.bytes < ib.byte_count + size
  · simp only [hc, if_pos]
    have hcnt := sb_add_count ib.bytes (if size < 128 then 128 else size)
    have hcap := sb_add_cap ib.bytes (if size < 128 then 128 else size)
    have hdl := sb_add_data_length ib.bytes (if size < 128 then 128 else size) h3
    have hle : size ≤ (if size < 128 then 128 else size) := by split <;> omega
    refine ⟨?_, ?_, ?_⟩
    · simp only [sb_count_some]
      omega
    · simpa only [sb_count_some, sbCap_some] using hcap.1
    · simpa only [sbData_some, sbCap_some] using hdl
  · simp only [hc, if_neg, not_false_iff]
    exact ⟨Nat.le_of_not_lt hc, h2, h3⟩

/-- Growing the buffer preserves the bytes already appended. -/
theorem grownBytes_data_prefix (ib : ImageBuffer) (size : Nat) (h : Wf ib) :
    (sbData (grownBytes ib size)).take ib.byte_count =
      (sbData ib.bytes).take ib.byte_count := by
  obtain ⟨h1, h2, h3⟩ := h
  unfold grownBytes
  by_cases hc : sb_count ib.bytes < ib.byte_count + size
  · simp only [hc, if_pos, sbData]
    exact sb_add_data_prefix ib.bytes _ ib.byte_count h3 h1 h2
  · simp [hc]

theorem listWrite_length (d : List Nat) (off : Nat) (src : List Nat)
    (h : off + src.length ≤ d.length) :
    (listWrite d off src).length = d.length := by
  simp only [listWrite, List.length_append, List.length_take, List.length_drop]
  omega

theorem listWrite_take (d : List Nat) (off : Nat) (src : List Nat)
    (h : off + src.length ≤ d.length) :
    (listWrite d off src).take (off + src.length) = d.take off ++ src := by
  have hlen : (d.take off ++ src).length = off + src.length := by
    simp only [List.length_append, List.length_take]
    omega
  rw [listWrite, List.take_append_of_le_length (le_of_eq hlen.symm), ← hlen,
      List.take_length]

/-- One append preserves the full buffer invariant and extends the content
by exactly the appended chunk. -/
theorem good_step (ib : ImageBuffer) (content : List Nat) (chunk : List Nat)
    (h : Good ib content) :
    Good (write_image_to_mem ib chunk) (content ++ chunk) := by
  obtain ⟨hwf, hbc, htake⟩ := h
  obtain ⟨hb1, hb2, hb3⟩ := grownBytes_bound ib chunk.length hwf
  have hpre := grownBytes_data_prefix ib chunk.length hwf
  unfold write_image_to_mem
  cases hg : grownBytes ib chunk.length with
  | none =>
    rw [hg] at hb1 hb2 hb3 hpre
    simp only [sb_count_none] at hb1
    have hbc0 : ib.byte_count = 0 := by omega
    have hck0 : chunk.length = 0 := by omega
    have hct0 : content.length = 0 := by omega
    have hck : chunk = [] := List.length_eq_zero.mp hck0
    have hct : content = [] := List.length_eq_zero.mp hct0
    subst hck; subst hct
    refine ⟨⟨?_, ?_, ?_⟩, ?_, ?_⟩ <;>
      simp [writeAt_none, sb_count_none, sbCap_none, sbData_none, hbc0]
  | some b =>
    rw [hg] at hb1 hb2 hb3 hpre
    simp only [sb_count_some, sbCap_some, sbData_some] at hb1 hb2 hb3 hpre
    have hins : ib.byte_count + chunk.length ≤ b.data.length := by omega
    have hwlen := listWrite_length b.data ib.byte_count chunk hins
    have hwtake := listWrite_take b.data ib.byte_count chunk hins
    refine ⟨⟨?_, ?_, ?_⟩, ?_, ?_⟩
    · simpa [writeAt_some, sb_count_some] using hb1
    · simpa [writeAt_some, sb_count_some, sbCap_some] using hb2
    · simpa [writeAt_some, sbData_some, sbCap_some, hwlen] using hb3
    · simp [hbc]
    · simp only [writeAt_some, sbData_some]
      rw [hwtake, hpre, htake]

/-- All states reachable by a sequence of appends from a given good state
are good. -/
theorem good_foldl (chunks : List (List Nat)) (ib : ImageBuffer)
    (content : List Nat) (h : Good ib content) :
    Good (chunks.foldl write_image_to_mem ib) (content ++ chunks.flatten) := by
  induction chunks generalizing ib content with
  | nil => simpa using h
  | cons c cs ih =>
    have := ih (write_image_to_mem ib c) (content ++ c) (good_step ib content c h)
    simpa [List.append_assoc] using this

/-- The ImageBuffer obtained by appending `chunks` in order to a fresh
(empty) buffer — the state the encoder write callback builds up. -/
def writeMany (chunks : List (List Nat)) : ImageBuffer :=
  chunks.foldl write_image_to_mem createImageBuffer

theorem good_writeMany (chunks : List (List Nat)) :
    Good (writeMany chunks) chunks.flatten := by
  simpa [writeMany] using good_foldl chunks createImageBuffer [] good_empty

/-! ### Claim theorems -/

/-- Claim C2: starting from a freshly created ImageBuffer, after every append
the invariant `sb_count bytes ≥ byte_count` holds, `byte_count` never
decreases across calls, and the memcpy of each append targets the region
`[byte_count, byte_count + size)`, which lies inside the element count of
the (possibly grown) buffer, itself inside the allocated storage. -/
theorem write_image_to_mem_invariant (pre : List (List Nat)) (c : List Nat) :
    (writeMany pre).byte_count ≤ sb_count (writeMany pre).bytes ∧
    (writeMany pre).byte_count ≤ (write_image_to_mem (writeMany pre) c).byte_count ∧
    (write_image_to_mem (writeMany pre) c).byte_count ≤
      sb_count (write_image_to_mem (writeMany pre) c).bytes ∧
    (writeMany pre).byte_count + c.length ≤
      sb_count (grownBytes (writeMany pre) c.length) ∧
    sb_count (grownBytes (writeMany pre) c.length) ≤
      sbCap (grownBytes (writeMany pre) c.length) ∧
    (sbData (grownBytes (writeMany pre) c.length)).length =
      sbCap (grownBytes (writeMany pre) c.length) := by
  obtain ⟨hwf, hbc, htake⟩ := good_writeMany pre
  have hstep : Good (write_image_to_mem (writeMany pre) c) (pre.flatten ++ c) :=
    good_step (writeMany pre) pre.flatten c (good_writeMany pre)
  obtain ⟨hgb1, hgb2, hgb3⟩ := grownBytes_bound (writeMany pre) c.length hwf
  refine ⟨hwf.1, ?_, hstep.1.1, hgb1, hgb2, hgb3⟩
  simp [write_image_to_mem]

/-- Claim C3: appending chunks whose sizes sum to N to a fresh ImageBuffer
yields `byte_count = N`, and the first N stored bytes are exactly the
concatenation of the chunks in append order, for every chunking. -/
theorem writeMany_content (chunks : List (List Nat)) :
    (writeMany chunks).byte_count = (chunks.map List.length).sum ∧
    (sbData (writeMany chunks).bytes).take (writeMany chunks).byte_count =
      chunks.flatten := by
  obtain ⟨hwf, hbc, htake⟩ := good_writeMany chunks
  exact ⟨by simpa using hbc, htake⟩

/-- Claim C8: when `sb_count bytes < byte_count + size`, an append grows the
stretchy buffer's element count by exactly `max size 128`; when capacity is
sufficient the buffer (count, capacity and storage) is only written, never
grown. -/
theorem write_image_to_mem_growth (ib : ImageBuffer) (c : List Nat) :
    (sb_count ib.bytes < ib.byte_count + c.length →
      sb_count (write_image_to_mem ib c).bytes =
        sb_count ib.bytes + max c.length 128) ∧
    (¬ sb_count ib.bytes < ib.byte_count + c.length →
      sb_count (write_image_to_mem ib c).bytes = sb_count ib.bytes ∧
      sbCap (write_image_to_mem ib c).bytes = sbCap ib.bytes) := by
  constructor
  · intro h
    have hcnt := sb_add_count ib.bytes (if c.length < 128 then 128 else c.length)
    have hmax := grow_amount_eq_max c.length
    cases hb : ib.bytes with
    | none =>
      rw [hb] at h hcnt
      simp only [sb_count_none] at h hcnt
      simp only [write_image_to_mem, grownBytes, hb, sb_count_none, if_pos h,
        writeAt_some, sb_count_some]
      omega
    | some b =>
      rw [hb] at h hcnt
      simp only [sb_count_some] at h hcnt
      simp only [write_image_to_mem, grownBytes, hb, sb_count_some, if_pos h,
        writeAt_some, sb_count_some]
      omega
  · intro h
    simp only [write_image_to_mem, grownBytes, h, if_neg, not_false_iff]
    cases hb : ib.bytes with
    | none => simp [writeAt_none, sb_count_none, sbCap_none]
    | some b => simp [writeAt_some, sb_count_some, sbCap_some]

/-- Claim C8 witness: a concrete append on a fresh buffer (insufficient
capacity) grows the count by exactly `max 1 128 = 128`, and a concrete
append within capacity leaves count and capacity unchanged. -/
theorem write_image_to_mem_growth_witness :
    sb_count (write_image_to_mem createImageBuffer [7]).bytes =
      sb_count createImageBuffer.bytes + max 1 128 ∧
    (sb_count (write_image_to_mem ⟨1, some ⟨128, 128, List.replicate 128 0⟩⟩ [7]).bytes =
        sb_count (⟨1, some ⟨128, 128, List.replicate 128 0⟩⟩ : ImageBuffer).bytes ∧
      sbCap (write_image_to_mem ⟨1, some ⟨128, 128, List.replicate 128 0⟩⟩ [7]).bytes =
        sbCap (⟨1, some ⟨128, 128, List.replicate 128 0⟩⟩ : ImageBuffer).bytes) :=
  ⟨(write_image_to_mem_growth createImageBuffer [7]).1 (by decide),
   (write_image_to_mem_growth ⟨1, some ⟨128, 128, List.replicate 128 0⟩⟩ [7]).2
     (by decide)⟩

/-- Claim C4 counterexample: `create_buffer` forwards its size to malloc with
no zero check, and the allocator (dlmalloc, as shipped by emscripten)
returns a non-null block for size 0 when memory is available — so the
claim that size 0 yields the null signal fails on a concrete call. -/
theorem create_buffer_zero_not_null :
    (create_buffer false ⟨0, []⟩ 0).1 ≠ none := by
  decide

/-- Claim C4 (amended): `create_buffer` returns exactly what malloc returns
for the requested size: the null signal when allocation fails (leaving the
heap unchanged), and otherwise a non-null pointer to a fresh block of
exactly `size` bytes — with no special-casing of size zero. -/
theorem create_buffer_spec (fails : Bool) (h : Heap) (size : Nat) :
    create_buffer fails h size = malloc fails h size ∧
    (fails = true → create_buffer fails h size = (none, h)) ∧
    (fails = false → ∃ p, p ≠ 0 ∧ (create_buffer fails h size).1 = some p ∧
      (p, size) ∈ (create_buffer fails h size).2.blocks) := by
  refine ⟨by simp [create_buffer], ?_, ?_⟩
  · intro hf
    simp [create_buffer, malloc, hf]
  · intro hf
    refine ⟨h.next + 1, by omega, ?_, ?_⟩ <;> simp [create_buffer, malloc, hf]

/-- Claim C4 witness: instantiating the amended claim at a concrete heap
and size. -/
theorem create_buffer_spec_witness :
    ∃ p, p ≠ 0 ∧ (create_buffer false ⟨0, []⟩ 5).1 = some p ∧
      (p, 5) ∈ (create_buffer false ⟨0, []⟩ 5).2.blocks :=
  (create_buffer_spec false ⟨0, []⟩ 5).2.2 rfl

/-- Claim C5: whenever the decode stage fails (WebPGetInfo reports an error,
or WebPDecodeRGBA returns null), both transcode entry points return the
null signal and never reach `createImageBuffer`: no handle allocation
event occurs in the invocation's trace. -/
theorem decode_failure_no_handle (inputNull getInfoOk : Bool)
    (rgba : Option Unit) (enc : Encoder)
    (hfail : getInfoOk = false ∨ rgba = none) :
    (get_png_handle_from_webp inputNull getInfoOk rgba enc).1 = none ∧
    Ev.allocHandle ∉ (get_png_handle_from_webp inputNull getInfoOk rgba enc).2 ∧
    (get_jpg_handle_from_webp inputNull getInfoOk rgba enc).1 = none ∧
    Ev.allocHandle ∉ (get_jpg_handle_from_webp inputNull getInfoOk rgba enc).2 := by
  rcases hfail with hf | hf <;> subst hf <;>
    cases inputNull <;>
      first
      | (cases getInfoOk <;>
          simp [get_png_handle_from_webp, get_jpg_handle_from_webp,
            decode_webp_to_rgba])
      | simp [get_png_handle_from_webp, get_jpg_handle_from_webp,
          decode_webp_to_rgba]

/-- Claim C5 witness: a concrete invocation in which WebPGetInfo fails
returns null from both entry points with no handle allocated. -/
theorem decode_failure_no_handle_witness :
    (get_png_handle_from_webp false false (some ()) ⟨[[1]], true⟩).1 = none ∧
    Ev.allocHandle ∉ (get_png_handle_from_webp false false (some ()) ⟨[[1]], true⟩).2 ∧
    (get_jpg_handle_from_webp false false (some ()) ⟨[[1]], true⟩).1 = none ∧
    Ev.allocHandle ∉ (get_jpg_handle_from_webp false false (some ()) ⟨[[1]], true⟩).2 :=
  decode_failure_no_handle false false (some ()) ⟨[[1]], true⟩ (Or.inl rfl)

/-- Claim C6: in every invocation in which decoding succeeds (WebPGetInfo
ok and WebPDecodeRGBA non-null), the RGBA pixel buffer is WebPFree'd within
the call on both the encode-success and encode-failure paths, and the
returned handle (when any) is precisely the buffer built by the write
callback from the encoder's chunks — it owns only its stretchy buffer,
never the RGBA buffer. -/
theorem rgba_always_freed (inputNull : Bool) (enc : Encoder) :
    Ev.webpFreeRGBA ∈ (get_png_handle_from_webp inputNull true (some ()) enc).2 ∧
    (get_png_handle_from_webp inputNull true (some ()) enc).1 =
      (if enc.ok then some (writeMany enc.chunks) else none) ∧
    Ev.webpFreeRGBA ∈ (get_jpg_handle_from_webp inputNull true (some ()) enc).2 ∧
    (get_jpg_handle_from_webp inputNull true (some ()) enc).1 =
      (if enc.ok then some (writeMany enc.chunks) else none) := by
  cases inputNull <;> cases henc : enc.ok <;>
    simp [get_png_handle_from_webp, get_jpg_handle_from_webp,
      decode_webp_to_rgba, writeMany, henc]

/-- Claim C9: a transcode invocation with a null input pointer logs a
diagnostic but does not fail fast: it still calls WebPGetInfo, and when
WebPGetInfo succeeds it goes on to call WebPDecodeRGBA. -/
theorem null_input_logged_not_rejected (getInfoOk : Bool) (rgba : Option Unit)
    (enc : Encoder) :
    (Ev.logNullInput ∈ (get_png_handle_from_webp true getInfoOk rgba enc).2 ∧
     Ev.callGetInfo ∈ (get_png_handle_from_webp true getInfoOk rgba enc).2 ∧
     (getInfoOk = true →
       Ev.callDecodeRGBA ∈ (get_png_handle_from_webp true getInfoOk rgba enc).2)) ∧
    (Ev.logNullInput ∈ (get_jpg_handle_from_webp true getInfoOk rgba enc).2 ∧
     Ev.callGetInfo ∈ (get_jpg_handle_from_webp true getInfoOk rgba enc).2 ∧
     (getInfoOk = true →
       Ev.callDecodeRGBA ∈ (get_jpg_handle_from_webp true getInfoOk rgba enc).2)) := by
  cases getInfoOk <;> cases rgba <;> cases henc : enc.ok <;>
    simp [get_png_handle_from_webp, get_jpg_handle_from_webp,
      decode_webp_to_rgba, henc]

/-- Claim C9 witness: at a concrete null-pointer invocation with a
succeeding WebPGetInfo, the diagnostic is logged and both decode
capabilities are still invoked. -/
theorem null_input_logged_not_rejected_witness :
    Ev.logNullInput ∈ (get_png_handle_from_webp true true (some ()) ⟨[], true⟩).2 ∧
    Ev.callGetInfo ∈ (get_png_handle_from_webp true true (some ()) ⟨[], true⟩).2 ∧
    Ev.callDecodeRGBA ∈ (get_png_handle_from_webp true true (some ()) ⟨[], true⟩).2 :=
  ⟨(null_input_logged_not_rejected true (some ()) ⟨[], true⟩).1.1,
   (null_input_logged_not_rejected true (some ()) ⟨[], true⟩).1.2.1,
   (null_input_logged_not_rejected true (some ()) ⟨[], true⟩).1.2.2 rfl⟩

/-- Claim C1 (refuting evaluation): on an input that decodes successfully
but whose encode reports failure, both entry points do return the null
signal, but the ImageBuffer created for the invocation is NOT released:
the trace contains the handle allocation and ends after WebPFree with no
`sb_free` and no `free` of the handle — the handle and its stretchy buffer
leak. -/
theorem encode_failure_leaks_handle :
    (get_png_handle_from_webp false true (some ()) ⟨[[7]], false⟩).1 = none ∧
    Ev.allocHandle ∈ (get_png_handle_from_webp false true (some ()) ⟨[[7]], false⟩).2 ∧
    Ev.freeHandle ∉ (get_png_handle_from_webp false true (some ()) ⟨[[7]], false⟩).2 ∧
    Ev.sbFreeBytes ∉ (get_png_handle_from_webp false true (some ()) ⟨[[7]], false⟩).2 ∧
    (get_jpg_handle_from_webp false true (some ()) ⟨[[9]], false⟩).1 = none ∧
    Ev.allocHandle ∈ (get_jpg_handle_from_webp false true (some ()) ⟨[[9]], false⟩).2 ∧
    Ev.freeHandle ∉ (get_jpg_handle_from_webp false true (some ()) ⟨[[9]], false⟩).2 ∧
    Ev.sbFreeBytes ∉ (get_jpg_handle_from_webp false true (some ()) ⟨[[9]], false⟩).2 := by
  decide

/-- Claim C7: `release_image_handle` on a null handle performs no frees
(a no-op); on a non-null handle a single call frees the owned stretchy
buffer allocation (when the bytes pointer is non-null) and then the
handle's own storage — all memory associated with the handle. -/
theorem release_image_handle_spec :
    release_image_handle none = [] ∧
    (∀ (n : Nat) (b : StretchyBuf),
      release_image_handle (some ⟨n, some b⟩) = [Ev.sbFreeBytes, Ev.freeHandle]) ∧
    (∀ n : Nat, release_image_handle (some ⟨n, none⟩) = [Ev.freeHandle]) :=
  ⟨rfl, fun _ _ => rfl, fun _ => rfl⟩

/-- Claim C10: the accessors take a (non-null) handle directly — the
precondition is encoded in the argument type, with no null branch unlike
`release_image_handle` — and return exactly the `byte_count` field (the
number of bytes appended during encoding) and the owned buffer pointer,
which is null for a fresh, never-appended buffer. -/
theorem handle_accessors_spec :
    (∀ p : ImageBuffer, get_num_bytes_from_handle p = p.byte_count ∧
      get_image_bytes_from_handle p = p.bytes) ∧
    get_image_bytes_from_handle createImageBuffer = none ∧
    (∀ chunks : List (List Nat),
      get_num_bytes_from_handle (writeMany chunks) = (chunks.map List.length).sum) := by
  refine ⟨fun p => ⟨rfl, rfl⟩, rfl, fun chunks => ?_⟩
  obtain ⟨hwf, hbc, htake⟩ := good_writeMany chunks
  simpa [get_num_bytes_from_handle] using hbc

end WebpShim
